import Mathlib

/-!
# Verification of the opensnoop capture-and-reconstruction engine

Shallow embedding of `src/tools/opensnoop.py`: the BPF-side path walk
(`SUBMIT_DATA`), the capture filters spliced into the kprobe/kfunc bodies,
the startup argument validation, and the Python-side consumer
(`split_names` / `print_event`).

Byte strings are modelled as `List Nat` (one entry per byte).  Directory
entry names come from NUL-terminated kernel strings, so a modelled name
never contains the byte 0; where a theorem needs that fact it is taken as
a hypothesis.
-/

namespace Opensnoop

/-- `#define NAME_MAX 255` (opensnoop.py line 134). -/
def NAME_MAX : Nat := 255

/-- `#define MAX_ENTRIES 32` (opensnoop.py line 135). -/
def MAX_ENTRIES : Nat := 32

/-- Abstract view of the kernel VFS state that the `SUBMIT_DATA` walk reads:
dentries and mounts are identified by natural numbers, and the fields the
BPF code dereferences (`d_name`, `d_parent`, `mnt_root`, `mnt_parent`,
`mnt_mountpoint`, `fs->pwd`) become functions on those identifiers.
`dentryName` returns the bytes of the NUL-terminated `d_name` string
(hence it contains no 0 byte for well-formed inputs). -/
structure VfsInput where
  dentryName : Nat → List Nat
  dentryParent : Nat → Nat
  mntRoot : Nat → Nat
  mntParent : Nat → Nat
  mntMountpoint : Nat → Nat
  cwdDentry : Nat
  cwdMnt : Nat

/-- Model of the kernel helper `bpf_probe_read_kernel_str(dst, size, src)`
reading a fault-free NUL-terminated string whose content bytes are `src`
(documented semantics of `strncpy_from_kernel_nofault`): at most `size`
bytes are written, the destination is always NUL-terminated — so at most
`size - 1` content bytes survive — and the return value is the length of
the *output* string including its trailing NUL, i.e. `min (|src| + 1) size`.
Result: (bytes written to the slot, return value). -/
def probeReadKernelStr (size : Nat) (src : List Nat) : List Nat × Nat :=
  (src.take (size - 1) ++ [0], min (src.length + 1) size)

/-- Result of the `SUBMIT_DATA` path walk: the chunk slots written (in the
order they were filled, i.e. leaf to root), the final `data->path_depth`,
and the number of loop iterations whose body executed. -/
structure WalkResult where
  chunks : List (List Nat)
  depth : Nat
  iters : Nat
deriving Repr, DecidableEq

/-- The `for (i = 1, payload += NAME_MAX; i < MAX_ENTRIES; i++)` loop of the
full-path `SUBMIT_DATA` block (opensnoop.py lines 473–509), with `fuel`
standing for the remaining iteration budget `MAX_ENTRIES - i`.  Each
iteration copies the current dentry's name into the next chunk slot via
`bpf_probe_read_kernel_str`; the C code then breaks when
`filepart_length < 0 || filepart_length > NAME_MAX` (`filepart_length` is a
`size_t`, so in the fault-free model this is `NAME_MAX < filepart_length`),
performs the mount-boundary test, and otherwise advances to the parent
dentry, incrementing `data->path_depth`. -/
def walkLoop (v : VfsInput) (fuel : Nat) (dentry mnt depth iters : Nat)
    (acc : List (List Nat)) : WalkResult :=
  match fuel with
  | 0 => ⟨acc, depth, iters⟩
  | fuel + 1 =>
    let r := probeReadKernelStr NAME_MAX (v.dentryName dentry)
    let slot := r.1
    let filepart_length := r.2
    if NAME_MAX < filepart_length then
      ⟨acc ++ [slot], depth, iters + 1⟩
    else
      let parent_dentry := v.dentryParent dentry
      let mnt_root := v.mntRoot mnt
      if dentry = parent_dentry ∨ dentry = mnt_root then
        let mnt_parent := v.mntParent mnt
        if mnt ≠ mnt_parent then
          walkLoop v fuel (v.mntMountpoint mnt) mnt_parent (depth + 1)
            (iters + 1) (acc ++ [slot])
        else
          ⟨acc ++ [slot], depth, iters + 1⟩
      else
        walkLoop v fuel parent_dentry mnt (depth + 1) (iters + 1) (acc ++ [slot])

/-- The full path walk: loop counter starts at `i = 1`, so at most
`MAX_ENTRIES - 1` iterations run; `data->path_depth` starts at 0. -/
def pathWalk (v : VfsInput) : WalkResult :=
  walkLoop v (MAX_ENTRIES - 1) v.cwdDentry v.cwdMnt 0 0 []

/-- Contents of chunk slot 0 as later seen by the consumer: the producer
runs `bpf_probe_read_user_str(&data->name, sizeof(data->name), fname)`,
writing the filename bytes plus a NUL terminator from offset 0; the
consumer's chunk 0 is the first `NAME_MAX` bytes of that buffer. -/
def chunk0 (fname : List Nat) : List Nat :=
  (fname ++ [0]).take NAME_MAX

/-- Producer side of the full-path `SUBMIT_DATA` block: the walk runs only
when `data->name[0] != '/'` (the filename is relative; `/` is byte 47).
Returns the chunk slots (slot 0 = filename) and the emitted
`data->path_depth`. -/
def submitData (fname : List Nat) (v : VfsInput) : List (List Nat) × Nat :=
  if (fname ++ [0]).headD 0 ≠ 47 then
    let w := pathWalk v
    (chunk0 fname :: w.chunks, w.depth)
  else
    ([chunk0 fname], 0)

/-- Consumer helper `split_names` (opensnoop.py lines 555–559) acting on the
per-slot view of `event.name`: each 255-byte chunk is cut at its first NUL
(`chunk.split(b'\x00', 1)[0]`), i.e. the bytes before the first 0. -/
def split_names (slots : List (List Nat)) : List (List Nat) :=
  slots.map (fun c => c.takeWhile (fun b => b != 0))

/-- Python `'/'.join` on byte strings (separator 47). -/
def joinSep : List (List Nat) → List Nat
  | [] => []
  | [x] => x
  | x :: y :: xs => x ++ 47 :: joinSep (y :: xs)

/-- Consumer rendering of the full path (opensnoop.py lines 606–617):
take the first `depth+1` chunks, drop entries equal to `"/"` or `""`,
reverse, join with `'/'`, and prepend a `'/'` unless the joined string
already starts with one.  (The `utf-8` decode with `errors='ignore'` is
modelled as the identity on bytes; theorems that depend on it restrict
component bytes to ASCII.) -/
def renderPath (slots : List (List Nat)) (depth : Nat) : List Nat :=
  let names := split_names slots
  let picked := names.take (depth + 1)
  let picked_str := picked.filter (fun s => s != [47] && s != [])
  let joined := joinSep picked_str.reverse
  if joined.headD 0 = 47 then joined else 47 :: joined

/-- Composite producer → consumer pipeline for the displayed PATH column in
full-path mode. -/
def displayPath (fname : List Nat) (v : VfsInput) : List Nat :=
  let p := submitData fname v
  renderPath p.1 p.2

/-- The `data->path_depth` value carried by an emitted event: it is
initialised to 0 (lines 195/356) and updated only by the full-path walk,
which itself runs only for a relative filename. -/
def emittedDepth (fullPath : Bool) (fname : List Nat) (v : VfsInput) : Nat :=
  if fullPath && ((fname ++ [0]).headD 0 != 47) then (pathWalk v).depth else 0

/-- Synthetic directory chain for the round-trip theorems: `ns` lists the
directory component names from the leaf (the working directory itself) to
the root-most non-root ancestor; dentry `i < ns.length` is the `i`-th
component, dentry `ns.length` is the filesystem root (named `"/"`, its own
parent, and the root of the single mount).  No mount crossings occur:
`mnt_parent` is the identity. -/
def chainInput (ns : List (List Nat)) : VfsInput where
  dentryName i := ns.getD i [47]
  dentryParent i := if i < ns.length then i + 1 else i
  mntRoot _ := ns.length
  mntParent m := m
  mntMountpoint m := m
  cwdDentry := 0
  cwdMnt := 0

/-! ## Startup configuration and validation -/

/-- The `O_*` flag symbols of the Python `os` module, with their values on
Linux x86-64 (the platform the tool targets); `getattr(os, flag)` in the
flag-filter loop is modelled as a lookup in this table. -/
def osFlagTable : List (String × Nat) :=
  [("O_RDONLY", 0), ("O_WRONLY", 1), ("O_RDWR", 2), ("O_ACCMODE", 3),
   ("O_CREAT", 0o100), ("O_EXCL", 0o200), ("O_NOCTTY", 0o400),
   ("O_TRUNC", 0o1000), ("O_APPEND", 0o2000), ("O_NONBLOCK", 0o4000),
   ("O_NDELAY", 0o4000), ("O_DSYNC", 0o10000), ("O_ASYNC", 0o20000),
   ("O_DIRECT", 0o40000), ("O_LARGEFILE", 0), ("O_DIRECTORY", 0o200000),
   ("O_NOFOLLOW", 0o400000), ("O_NOATIME", 0o1000000),
   ("O_CLOEXEC", 0o2000000), ("O_SYNC", 0o4010000), ("O_RSYNC", 0o4010000),
   ("O_FSYNC", 0o4010000), ("O_PATH", 0o10000000), ("O_TMPFILE", 0o20200000)]

/-- `getattr(os, flag)`: `some` value when the symbol exists, else `none`
(the `AttributeError` case). -/
def osFlag (s : String) : Option Nat :=
  (osFlagTable.find? (fun p => p.1 == s)).map (·.2)

/-- `os.O_CREAT` on Linux. -/
def os_O_CREAT : Nat := 0o100

/-- `os.O_TMPFILE` on Linux (`__O_TMPFILE | O_DIRECTORY`). -/
def os_O_TMPFILE : Nat := 0o20200000

/-- The parsed command-line arguments of opensnoop (the fields the claims
touch).  Numeric filter arguments arrive as CLI strings; they are modelled
by their parsed values, with Python truthiness of a supplied argument
string matching `Option.isSome` (a supplied numeric string is non-empty,
hence truthy, even for `"0"`). -/
structure Args where
  pid : Option Nat := none
  tid : Option Nat := none
  uid : Option Nat := none
  exec : Option (List String) := none
  flag_filter : Option (List String) := none
  extended_fields : Bool := false
  full_path : Bool := false
  failed : Bool := false
  name : Option (List Nat) := none
  buffer_pages : Nat := 64
deriving Repr, DecidableEq

/-- Python truthiness of `args.exec` (a list or `None`): `None` and `[]`
are falsy. -/
def truthyExec (e : Option (List String)) : Bool :=
  match e with
  | none => false
  | some l => !l.isEmpty

/-- The startup configuration errors of opensnoop.py lines 93–110. -/
inductive ConfigError where
  | pidExecConflict
  | emptyExec
  | badFlag (tok : String)
deriving Repr, DecidableEq

/-- Python `s.startswith(pre)`: the first `|pre|` characters of `s` are
`pre`. -/
def pyStartsWith (s pre : String) : Bool :=
  s.data.take pre.data.length == pre.data

/-- The flag-filter loop (lines 103–110): each token must start with `O_`
and name an `os` attribute; the mask is the OR of the values, and the
first bad token aborts with an error. -/
def buildFlagMask : List String → Except ConfigError Nat
  | [] => .ok 0
  | tok :: rest =>
    if !pyStartsWith tok "O_" then .error (.badFlag tok)
    else
      match osFlag tok with
      | none => .error (.badFlag tok)
      | some v =>
        match buildFlagMask rest with
        | .error e => .error e
        | .ok m => .ok (v ||| m)

/-- `args.flag_filter or []` (line 104). -/
def effectiveFlagList (a : Args) : List String :=
  match a.flag_filter with
  | none => []
  | some l => l

/-- Startup validation, in source order (lines 93–110): the pid/exec
conflict check, the empty `--exec` check, then the flag-filter loop.
On success returns the accumulated flag mask.  No other argument —
in particular `buffer_pages` — is inspected. -/
def validate (a : Args) : Except ConfigError Nat :=
  if a.pid.isSome && truthyExec a.exec then .error .pidExecConflict
  else if a.exec == some [] then .error .emptyExec
  else buildFlagMask (effectiveFlagList a)

/-! ## Early (producer-side) filters -/

/-- The filter installed for the `KPROBE_PID_TID_FILTER` /
`KFUNC_PID_TID_FILTER` placeholder (lines 406–424): an
`if args.tid / elif args.pid / elif args.exec / else` chain. -/
inductive PidTidFilter where
  | tidF (t : Nat)
  | pidF (p : Nat)
  | execF (childPid : Nat)
  | noFilter
deriving Repr, DecidableEq

/-- Which pid/tid filter text is spliced in, and whether `run_cmd` is
invoked to spawn the `--exec` command (it is reached only in the third
branch of the chain).  `childPid` is the pid `run_cmd` would return. -/
def pidTidFilterChoice (a : Args) (childPid : Nat) : PidTidFilter × Bool :=
  match a.tid with
  | some t => (.tidF t, false)
  | none =>
    match a.pid with
    | some p => (.pidF p, false)
    | none =>
      if truthyExec a.exec then (.execF childPid, true)
      else (.noFilter, false)

/-- Semantics of the spliced early filter, given the composite thread
identifier `id` (a `u64`: pid in the high 32 bits, tid in the low 32
bits): the C code computes `u32 pid = id >> 32; u32 tid = id;` and
discards on mismatch. -/
def earlyPasses (f : PidTidFilter) (id : Nat) : Bool :=
  match f with
  | .tidF t => (id % 2 ^ 32) == t
  | .pidF p => (id % 2 ^ 64 / 2 ^ 32) == p
  | .execF c => (id % 2 ^ 64 / 2 ^ 32) == c
  | .noFilter => true

/-- `KPROBE_UID_FILTER` / `KFUNC_UID_FILTER` (lines 425–432):
`if (uid != U) discard` when configured. -/
def uidRejected (f : Option Nat) (uid : Nat) : Bool :=
  match f with
  | some u => uid != u
  | none => false

/-- `KPROBE_FLAGS_FILTER` / `KFUNC_FLAGS_FILTER` (lines 438–445):
`if (!(flags & MASK)) discard` when configured. -/
def flagsRejected (m : Option Nat) (flags : Nat) : Bool :=
  match m with
  | some mask => flags &&& mask == 0
  | none => false

/-- The early-filter configuration spliced into the capture bodies. -/
structure CaptureCfg where
  pidTid : PidTidFilter
  uidFilter : Option Nat
  flagMask : Option Nat
  containerFiltered : Bool
deriving Repr, DecidableEq

/-- The capture configuration the substitutions build from the arguments
(lines 406–445): the pid/tid chain, the uid filter when `args.uid` is
supplied, and the flag mask when `args.flag_filter` is a non-empty list.
`containerFiltered` abstracts the delegated
`container_should_be_filtered()` predicate. -/
def captureCfgOf (a : Args) (childPid : Nat) (containerFiltered : Bool) :
    CaptureCfg where
  pidTid := (pidTidFilterChoice a childPid).1
  uidFilter := a.uid
  flagMask :=
    if (effectiveFlagList a).isEmpty then none
    else some ((buildFlagMask (effectiveFlagList a)).toOption.getD 0)
  containerFiltered := containerFiltered

/-! ## Captured events -/

/-- The wire record `struct data_t` (lines 145–168).  `nameSlots` is the
per-slot view of the `name` buffer (a single slot in compact mode). -/
structure OpenEvent where
  id : Nat
  ts : Nat
  uid : Nat
  ret : Int
  comm : List Nat
  path_depth : Nat
  nameSlots : List (List Nat)
  flags : Nat
  mode : Nat
deriving Repr, DecidableEq

/-- Name buffer and depth as filled by the capture body: the full-path
`SUBMIT_DATA` walk when `-F` was given, otherwise the single compact
slot with `path_depth = 0`. -/
def nameAndDepth (fullPath : Bool) (fname : List Nat) (v : VfsInput) :
    List (List Nat) × Nat :=
  if fullPath then submitData fname v else ([chunk0 fname], 0)

/-- The kfunc capture body `bpf_text_kfunc_body` (lines 333–369): reserve,
run the spliced early filters and the container predicate (discarding the
reservation on any rejection), then fill and submit the record. -/
def kfuncCapture (cfg : CaptureCfg) (fullPath : Bool) (id uid : Nat)
    (comm : List Nat) (ts : Nat) (fname : List Nat) (v : VfsInput)
    (flags mode : Nat) (ret : Int) : Option OpenEvent :=
  if !earlyPasses cfg.pidTid id || uidRejected cfg.uidFilter uid
      || flagsRejected cfg.flagMask flags || cfg.containerFiltered then
    none
  else
    let nd := nameAndDepth fullPath fname v
    some { id := id, ts := ts / 1000, uid := uid, ret := ret, comm := comm,
           path_depth := nd.2, nameSlots := nd.1, flags := flags,
           mode := mode }

/-- `struct val_t` stored in the `infotmp` hash by the kprobe entry
handler (lines 137–143). -/
structure ValT where
  id : Nat
  comm : List Nat
  flags : Nat
  mode : Nat
deriving Repr, DecidableEq

/-- The kprobe entry body `bpf_text_kprobe_body` (lines 237–262): the
spliced early filters and the container predicate run before anything is
stored; on pass, a `val_t` is recorded in `infotmp` under `id`. -/
def kprobeEntry (cfg : CaptureCfg) (id uid flags mode : Nat)
    (comm : List Nat) : Option ValT :=
  if !earlyPasses cfg.pidTid id || uidRejected cfg.uidFilter uid
      || flagsRejected cfg.flagMask flags || cfg.containerFiltered then
    none
  else
    some { id := id, comm := comm, flags := flags, mode := mode }

/-- The kprobe return handler `trace_return` (lines 176–210): a missed
`infotmp` entry produces no event; otherwise the record is filled from
the stored `val_t` plus the return value and submitted. -/
def trace_return (pending : Option ValT) (fullPath : Bool) (ts uid : Nat)
    (fname : List Nat) (v : VfsInput) (ret : Int) : Option OpenEvent :=
  match pending with
  | none => none
  | some val =>
    let nd := nameAndDepth fullPath fname v
    some { id := val.id, ts := ts / 1000, uid := uid, ret := ret,
           comm := val.comm, path_depth := nd.2, nameSlots := nd.1,
           flags := val.flags, mode := val.mode }

/-! ## Consumer rendering -/

/-- `"%0*o"`-style formatting: octal digits of `n`, zero-padded on the
left to at least `width` digits. -/
def fmtOctal (width n : Nat) : String :=
  let ds := Nat.toDigits 8 n
  String.mk (List.replicate (width - ds.length) '0' ++ ds)

/-- Python `pat in hay` on byte strings (used by the process-name late
filter `bytes(args.name) not in event.comm`). -/
def bytesIn (pat hay : List Nat) : Bool :=
  (List.range (hay.length + 1)).any (fun i => ((hay.drop i).take pat.length) == pat)

/-- One rendered output row of `print_event`: the FD and ERR columns, the
optional extended FLAGS/MODE columns, and the PATH column bytes. -/
structure Row where
  fd : Int
  err : Int
  extCols : Option (String × String)
  path : List Nat
deriving Repr, DecidableEq

/-- The consumer callback `print_event` (lines 562–620), minus the
timestamp/uid/comm prefix columns: split the return value into FD and ERR,
apply the late filters (`-x` failed-only and `-n` name substring), and
render the row; `none` means the event is skipped. -/
def print_event (a : Args) (e : OpenEvent) : Option Row :=
  let fd_err : Int × Int := if e.ret ≥ 0 then (e.ret, 0) else (-1, -e.ret)
  let skip :=
    (a.failed && decide (e.ret ≥ 0))
    || (match a.name with
        | some pat => !bytesIn pat e.comm
        | none => false)
  if skip then none
  else
    some { fd := fd_err.1, err := fd_err.2,
           extCols :=
             if a.extended_fields then
               some (fmtOctal 8 e.flags,
                 if e.mode == 0 && e.flags &&& os_O_CREAT == 0
                     && e.flags &&& os_O_TMPFILE != os_O_TMPFILE then "n/a"
                 else fmtOctal 4 e.mode)
             else none,
           path :=
             if a.full_path then renderPath e.nameSlots e.path_depth
             else (e.nameSlots.headD []).takeWhile (fun b => b != 0) }

/-! ## Startup pipeline -/

/-- `BUFFER_PAGES` substitution (lines 433–436): `if args.buffer_pages:`
uses the supplied value verbatim, falling back to 64 when it is falsy
(i.e. zero). -/
def bufferPagesValue (a : Args) : Nat :=
  if a.buffer_pages != 0 then a.buffer_pages else 64

/-- Observable effects of a startup that passed validation: which early
pid/tid filter text was installed, whether `run_cmd` spawned the `--exec`
command, the flag mask, the ring-buffer page count spliced into
`BPF_RINGBUF_OUTPUT`, whether capture points were compiled and attached
(lines 525–535), and whether the `cmd_ready` handshake (line 538) and the
`cmd_exited` loop check (line 630) are invoked for `--exec`. -/
structure StartupTrace where
  filter : PidTidFilter
  spawned : Bool
  flagMaskVal : Nat
  bufferPages : Nat
  attachedCapturePoints : Bool
  readinessWaited : Bool
  exitCheckUsed : Bool
deriving Repr, DecidableEq

/-- The startup sequence: validation (lines 93–110) runs first and a
failure exits before the program text is compiled or any capture point is
attached; otherwise the substitutions are performed, the program is
loaded and attached, and the `--exec` coordination steps run. -/
def runStartup (a : Args) (childPid : Nat) : Except ConfigError StartupTrace :=
  match validate a with
  | .error e => .error e
  | .ok m =>
    let fc := pidTidFilterChoice a childPid
    .ok { filter := fc.1, spawned := fc.2, flagMaskVal := m,
          bufferPages := bufferPagesValue a,
          attachedCapturePoints := true,
          readinessWaited := truthyExec a.exec,
          exitCheckUsed := truthyExec a.exec }

/-! ## Helper lemmas -/

/-- Bound invariant of the walk loop: every executed iteration bumps the
iteration count by one and the depth by at most one, and at most `fuel`
iterations run. -/
theorem walkLoop_bounds (v : VfsInput) (fuel : Nat) :
    ∀ dentry mnt depth iters acc,
      (walkLoop v fuel dentry mnt depth iters acc).iters ≤ iters + fuel ∧
      (walkLoop v fuel dentry mnt depth iters acc).depth + iters ≤
        depth + (walkLoop v fuel dentry mnt depth iters acc).iters ∧
      iters ≤ (walkLoop v fuel dentry mnt depth iters acc).iters := by
  induction fuel with
  | zero =>
    intro dentry mnt depth iters acc
    simp [walkLoop]
  | succ f ih =>
    intro dentry mnt depth iters acc
    simp only [walkLoop]
    split
    · simp
    · split
      · split
        · have h := ih (v.mntMountpoint mnt) (v.mntParent mnt) (depth + 1)
            (iters + 1) (acc ++ [(probeReadKernelStr NAME_MAX (v.dentryName dentry)).1])
          exact ⟨by omega, by omega, by omega⟩
        · simp
      · have h := ih (v.dentryParent dentry) mnt (depth + 1) (iters + 1)
          (acc ++ [(probeReadKernelStr NAME_MAX (v.dentryName dentry)).1])
        exact ⟨by omega, by omega, by omega⟩

/-! ## Claim theorems -/

/-- C2: For every event produced by the capture path, the path-walk loop of
the path reconstructor executes at most 32 iterations, and the emitted
`pathChunkDepth` field is always in the interval [0,32): it starts at 0 and
is incremented at most once per loop iteration (`depth ≤ iters`), for every
input directory chain however deep. -/
theorem walk_iterations_and_depth_bounded (fullPath : Bool) (fname : List Nat)
    (v : VfsInput) :
    (pathWalk v).iters ≤ 32 ∧
    (pathWalk v).depth ≤ (pathWalk v).iters ∧
    emittedDepth fullPath fname v < 32 := by
  have h := walkLoop_bounds v (MAX_ENTRIES - 1) v.cwdDentry v.cwdMnt 0 0 []
  have hw : pathWalk v = walkLoop v (MAX_ENTRIES - 1) v.cwdDentry v.cwdMnt 0 0 [] := rfl
  have hM : MAX_ENTRIES - 1 = 31 := rfl
  rw [hM] at h
  refine ⟨by rw [hw, hM]; omega, by rw [hw, hM]; omega, ?_⟩
  unfold emittedDepth
  split
  · rw [hw, hM]; omega
  · omega

/-- C4: When a flag-filter mask `M` is configured (built by OR-ing the named
flag symbols, here as the hypothesis `buildFlagMask tokens = .ok M`), every
event emitted by either capture strategy satisfies `flags &&& M ≠ 0`
(any-bit overlap, not exact match), and an attempt whose flags share no bit
with `M` is discarded with no event produced — by the kfunc body, by the
kprobe entry handler (so no correlation entry is stored), and hence by the
kprobe return handler. -/
theorem flag_filter_any_bit (a : Args) (tokens : List String) (M : Nat)
    (htok : a.flag_filter = some tokens) (hne : tokens ≠ [])
    (hmask : buildFlagMask tokens = .ok M)
    (childPid : Nat) (cf fullPath : Bool) (id uid ts uid2 ts2 : Nat)
    (comm fname : List Nat) (v : VfsInput) (flags mode : Nat) (ret : Int) :
    (∀ e, kfuncCapture (captureCfgOf a childPid cf) fullPath id uid comm ts
        fname v flags mode ret = some e → e.flags &&& M ≠ 0) ∧
    (flags &&& M = 0 →
      kfuncCapture (captureCfgOf a childPid cf) fullPath id uid comm ts
        fname v flags mode ret = none) ∧
    (∀ e, trace_return (kprobeEntry (captureCfgOf a childPid cf) id uid flags
        mode comm) fullPath ts2 uid2 fname v ret = some e →
      e.flags &&& M ≠ 0) ∧
    (flags &&& M = 0 →
      kprobeEntry (captureCfgOf a childPid cf) id uid flags mode comm = none) := by
  have hcfg : (captureCfgOf a childPid cf).flagMask = some M := by
    simp only [captureCfgOf, effectiveFlagList, htok]
    rw [if_neg (by simpa using hne)]
    simp [hmask, Except.toOption]
  refine ⟨?_, ?_, ?_, ?_⟩
  · intro e he
    simp only [kfuncCapture] at he
    split at he
    · exact absurd he (by simp)
    · rename_i hcond
      simp only [Bool.or_eq_true, not_or, Bool.not_eq_true] at hcond
      obtain ⟨⟨⟨h1, h2⟩, h3⟩, h4⟩ := hcond
      rw [hcfg] at h3
      simp only [flagsRejected, beq_eq_false_iff_ne, ne_eq] at h3
      have he' : e.flags = flags := by
        rw [← Option.some.inj he]
      rw [he']
      exact h3
  · intro h0
    simp only [kfuncCapture]
    rw [if_pos]
    simp only [Bool.or_eq_true]
    refine Or.inl (Or.inr ?_)
    rw [hcfg]
    simp [flagsRejected, h0]
  · intro e he
    simp only [kprobeEntry, trace_return] at he
    split at he
    · exact absurd he (by simp)
    · rename_i val hval
      split at hval
      · exact absurd hval (by simp)
      · rename_i hcond
        simp only [Bool.or_eq_true, not_or, Bool.not_eq_true] at hcond
        obtain ⟨⟨⟨h1, h2⟩, h3⟩, h4⟩ := hcond
        rw [hcfg] at h3
        simp only [flagsRejected, beq_eq_false_iff_ne, ne_eq] at h3
        have hval' : val.flags = flags := by
          rw [← Option.some.inj hval]
        have he' : e.flags = val.flags := by
          rw [← Option.some.inj he]
        rw [he', hval']
        exact h3
  · intro h0
    simp only [kprobeEntry]
    rw [if_pos]
    simp only [Bool.or_eq_true]
    refine Or.inl (Or.inr ?_)
    rw [hcfg]
    simp [flagsRejected, h0]

/-- C5: When both a thread-id filter and a process-id filter are configured,
only the thread-id filter has effect: the installed early filter is the
thread-id one (the process-id comparison is not installed at all, and no
command is spawned by this branch), and it compares the low 32 bits of the
composite thread identifier against the configured thread id. -/
theorem tid_filter_overrides_pid (a : Args) (t p : Nat)
    (ht : a.tid = some t) (hp : a.pid = some p) (childPid : Nat) :
    (pidTidFilterChoice a childPid).1 = .tidF t ∧
    (pidTidFilterChoice a childPid).2 = false ∧
    (∀ id, earlyPasses (pidTidFilterChoice a childPid).1 id =
      (id % 2 ^ 32 == t)) ∧
    (∀ q, (pidTidFilterChoice a childPid).1 ≠ .pidF q) := by
  simp [pidTidFilterChoice, ht, earlyPasses]

/-- C5 witness: with `-t 5 -p 7`, the installed filter is the thread-id
filter for 5 and it accepts exactly the ids whose low 32 bits are 5. -/
theorem tid_filter_overrides_pid_witness :
    (pidTidFilterChoice { tid := some 5, pid := some 7 } 0).1 = .tidF 5 ∧
    earlyPasses (pidTidFilterChoice { tid := some 5, pid := some 7 } 0).1
      ((9 * 2 ^ 32) + 5) = true ∧
    earlyPasses (pidTidFilterChoice { tid := some 5, pid := some 7 } 0).1
      ((7 * 2 ^ 32) + 6) = false := by
  have h := tid_filter_overrides_pid { tid := some 5, pid := some 7 } 5 7
    rfl rfl 0
  refine ⟨h.1, ?_, ?_⟩
  · rw [h.2.2.1]
    decide
  · rw [h.2.2.1]
    decide

/-- C6: For every rendered event, the FD column equals the call's return
value when that value is non-negative and -1 otherwise, and the ERR column
equals 0 when the return value is non-negative and the negated return
value otherwise. -/
theorem fd_err_columns (a : Args) (e : OpenEvent) (row : Row)
    (h : print_event a e = some row) :
    row.fd = (if e.ret ≥ 0 then e.ret else -1) ∧
    row.err = (if e.ret ≥ 0 then 0 else -e.ret) := by
  simp only [print_event] at h
  split at h
  · exact absurd h (by simp)
  · have h' := Option.some.inj h
    constructor
    · rw [← h']
      split <;> rfl
    · rw [← h']
      split <;> rfl

/-- A zero-padded octal rendering never equals the literal `"n/a"`: its
length is at least the pad width. -/
theorem fmtOctal_ne_na (width n : Nat) (hw : 4 ≤ width) :
    fmtOctal width n ≠ "n/a" := by
  intro heq
  have hlen := congrArg String.length heq
  simp only [fmtOctal, String.length, String.mk, List.length_append,
    List.length_replicate, List.length_cons, List.length_nil] at hlen
  omega

/-- C7: When extended fields are requested, every rendered event shows
FLAGS as the 8-digit zero-padded octal form of its flags (exactly 8 digits
whenever `flags < 8^8`), and shows MODE as the literal `"n/a"` exactly when
the mode value is zero and neither the create flag nor the temp-file flag
is set in the event's flags, and as the 4-digit zero-padded octal form of
the mode otherwise. -/
theorem flags_mode_rendering (a : Args) (e : OpenEvent) (row : Row)
    (hext : a.extended_fields = true) (h : print_event a e = some row) :
    (∃ ms, row.extCols = some (fmtOctal 8 e.flags, ms) ∧
      ((ms = "n/a") ↔
        (e.mode = 0 ∧ e.flags &&& os_O_CREAT = 0 ∧
          e.flags &&& os_O_TMPFILE ≠ os_O_TMPFILE)) ∧
      (¬(e.mode = 0 ∧ e.flags &&& os_O_CREAT = 0 ∧
          e.flags &&& os_O_TMPFILE ≠ os_O_TMPFILE) →
        ms = fmtOctal 4 e.mode)) ∧
    (e.flags < 8 ^ 8 → (fmtOctal 8 e.flags).length = 8) := by
  have hbool : (e.mode == 0 && e.flags &&& os_O_CREAT == 0
      && e.flags &&& os_O_TMPFILE != os_O_TMPFILE) = true ↔
      (e.mode = 0 ∧ e.flags &&& os_O_CREAT = 0 ∧
        e.flags &&& os_O_TMPFILE ≠ os_O_TMPFILE) := by
    simp [Bool.and_eq_true, and_assoc]
  constructor
  · simp only [print_event] at h
    split at h
    · exact absurd h (by simp)
    · have h' := Option.some.inj h
      refine ⟨(if e.mode == 0 && e.flags &&& os_O_CREAT == 0
          && e.flags &&& os_O_TMPFILE != os_O_TMPFILE then "n/a"
          else fmtOctal 4 e.mode), ?_, ?_, ?_⟩
      · rw [← h']
      · by_cases hB : (e.mode == 0 && e.flags &&& os_O_CREAT == 0
            && e.flags &&& os_O_TMPFILE != os_O_TMPFILE) = true
        · rw [if_pos hB]
          simp only [true_iff]
          exact hbool.mp hB
        · rw [if_neg hB]
          constructor
          · intro hna
            exact absurd hna (fmtOctal_ne_na 4 e.mode (le_refl 4))
          · intro hc
            exact absurd (hbool.mpr hc) hB
      · intro hc
        rw [if_neg (fun hB => hc (hbool.mp hB))]
  · intro hlt
    have hd : (Nat.toDigits 8 e.flags).length ≤ 8 := by
      have := Nat.toDigitsCore_length 8 (by omega) (e.flags + 1) e.flags 8
        hlt (by omega)
      simpa [Nat.toDigits] using this
    simp only [fmtOctal, String.length, String.mk, List.length_append,
      List.length_replicate]
    omega

/-- If the flag-filter loop completes with a mask, every token named a
valid flag symbol. -/
theorem buildFlagMask_ok_valid :
    ∀ (l : List String) (m : Nat), buildFlagMask l = .ok m →
      ∀ tok ∈ l, pyStartsWith tok "O_" = true ∧ (osFlag tok).isSome = true := by
  intro l
  induction l with
  | nil => intro m _ tok htok; exact absurd htok (by simp)
  | cons hd tl ih =>
    intro m hm tok htok
    simp only [buildFlagMask] at hm
    split at hm
    · exact absurd hm (by simp)
    · rename_i hstart
      split at hm
      · exact absurd hm (by simp)
      · rename_i v hv
        split at hm
        · exact absurd hm (by simp)
        · rename_i m' hm'
          rcases List.mem_cons.mp htok with rfl | htl
          · exact ⟨by simpa using hstart, by simp [hv]⟩
          · exact ih m' hm' tok htl

/-- C8: For every startup configuration that combines a process-id filter
with launch-and-trace, or gives an empty launch command, or contains a
flag-filter token that does not name a valid flag symbol, startup reports
a configuration error and exits before any instrumentation is installed:
`runStartup` produces an error and no `StartupTrace` (hence no capture
point is compiled or attached). -/
theorem config_errors_abort_startup (a : Args)
    (h : (a.pid.isSome = true ∧ truthyExec a.exec = true) ∨
         a.exec = some [] ∨
         (∃ tok ∈ effectiveFlagList a,
           ¬(pyStartsWith tok "O_" = true ∧ (osFlag tok).isSome = true))) :
    ∃ err, ∀ childPid, runStartup a childPid = .error err := by
  simp only [runStartup, validate]
  by_cases h1 : a.pid.isSome && truthyExec a.exec
  · exact ⟨.pidExecConflict, fun _ => by rw [if_pos h1]⟩
  · rw [if_neg h1]
    by_cases h2 : a.exec == some []
    · exact ⟨.emptyExec, fun _ => by rw [if_pos h2]⟩
    · rw [if_neg h2]
      rcases h with hc | hc | hc
      · exact absurd (by simp [hc.1, hc.2]) h1
      · exact absurd (by simp [hc]) h2
      · obtain ⟨tok, htok, hbad⟩ := hc
        rcases hfm : buildFlagMask (effectiveFlagList a) with e | m
        · exact ⟨e, fun _ => rfl⟩
        · exact absurd (buildFlagMask_ok_valid _ m hfm tok htok) hbad

/-- C8 witness: each of the three configuration-error classes aborts
startup — `-p 1` together with `--exec ls`, an empty `--exec`, and the
unknown flag-filter token `O_BOGUS`. -/
theorem config_errors_abort_startup_witness :
    (∃ err, ∀ childPid,
      runStartup { pid := some 1, exec := some ["ls"] } childPid = .error err) ∧
    (∃ err, ∀ childPid,
      runStartup { exec := some [] } childPid = .error err) ∧
    (∃ err, ∀ childPid,
      runStartup { flag_filter := some ["O_BOGUS"] } childPid = .error err) := by
  refine ⟨?_, ?_, ?_⟩
  · exact config_errors_abort_startup _ (Or.inl (by decide))
  · exact config_errors_abort_startup _ (Or.inr (Or.inl (by decide)))
  · exact config_errors_abort_startup _ (Or.inr (Or.inr
      ⟨"O_BOGUS", by decide, by decide⟩))

/-- C9 counterexample: the claim "a supplied channel-capacity override is
accepted as a valid configuration only if it is a power of two" fails at
the concrete override 48: startup validation accepts it, the value 48 —
which is not a power of two — is spliced verbatim as the ring-buffer page
count, and no error is reported. -/
theorem buffer_pages_not_validated_cex :
    (validate { buffer_pages := 48 } = .ok 0) ∧
    (runStartup { buffer_pages := 48 } 0).toOption.map
      (fun t => t.bufferPages) = some 48 ∧
    (¬ ∃ k, 48 = 2 ^ k) := by
  refine ⟨rfl, rfl, ?_⟩
  rintro ⟨k, hk⟩
  rcases Nat.lt_or_ge k 6 with hlt | hge
  · interval_cases k <;> simp_all
  · have h64 : (2 : Nat) ^ 6 ≤ 2 ^ k := Nat.pow_le_pow_right (by omega) hge
    have : (2 : Nat) ^ 6 = 64 := by norm_num
    omega

/-- C9 (amended): the tool itself performs no power-of-two validation of
the channel-capacity override: startup validation is entirely independent
of `buffer_pages`, and the page count spliced into the channel declaration
is the override itself whenever it is nonzero (zero falls back to the
default 64); the power-of-two requirement is only documented in the help
text and left to the platform layer at load time. -/
theorem buffer_pages_passthrough (a : Args) (v : Nat) :
    validate { a with buffer_pages := v } = validate a ∧
    bufferPagesValue { a with buffer_pages := v } =
      (if v = 0 then 64 else v) := by
  constructor
  · rfl
  · simp only [bufferPagesValue]
    by_cases hv : v = 0
    · subst hv
      rfl
    · rw [if_neg hv, if_pos (by simpa using hv)]

/-- C10: A configuration that supplies both a thread-id filter and a
launch-and-trace command is accepted without a configuration error (the
conflict check only pairs the process-id filter with `--exec`), yet the
given command is never spawned — `run_cmd` is reachable only in the third
branch of the pid/tid filter chain — while the readiness handshake
(`cmd_ready`) and the exit check (`cmd_exited`) for the launched command
are still invoked. -/
theorem tid_exec_accepted_but_never_spawned (a : Args) (t : Nat)
    (cmd : List String) (ht : a.tid = some t) (hp : a.pid = none)
    (hx : a.exec = some cmd) (hcmd : cmd ≠ [])
    (hff : a.flag_filter = none) (childPid : Nat) :
    runStartup a childPid =
      .ok { filter := .tidF t, spawned := false, flagMaskVal := 0,
            bufferPages := bufferPagesValue a,
            attachedCapturePoints := true,
            readinessWaited := true, exitCheckUsed := true } := by
  have hex : truthyExec (some cmd) = true := by
    cases cmd with
    | nil => exact absurd rfl hcmd
    | cons c cs => rfl
  have hne : (some cmd == some ([] : List String)) = false := by
    simp only [beq_eq_false_iff_ne, ne_eq, Option.some.injEq]
    exact hcmd
  simp only [runStartup, validate, hp, hx, Option.isSome_none,
    Bool.false_and, Bool.false_eq_true, if_false, hne, effectiveFlagList,
    hff, buildFlagMask, pidTidFilterChoice, ht, hex]

/-- C10 witness: `-t 3 --exec sleep 5` passes validation, installs the
thread-id filter, never spawns the command, and still runs the readiness
handshake and the exit check. -/
theorem tid_exec_accepted_but_never_spawned_witness :
    runStartup { tid := some 3, exec := some ["sleep", "5"] } 99 =
      .ok { filter := .tidF 3, spawned := false, flagMaskVal := 0,
            bufferPages := 64, attachedCapturePoints := true,
            readinessWaited := true, exitCheckUsed := true } := by
  have h := tid_exec_accepted_but_never_spawned
    { tid := some 3, exec := some ["sleep", "5"] } 3 ["sleep", "5"]
    rfl rfl rfl (by decide) rfl 99
  rw [h]
  rfl

/-! ## The synthetic chain: behaviour of the walk on `chainInput` -/

theorem chainInput_dentryName_lt (ns : List (List Nat)) (i : Nat)
    (h : i < ns.length) : (chainInput ns).dentryName i = ns[i] := by
  simp [chainInput, List.getD_eq_getElem?_getD, List.getElem?_eq_getElem h]

theorem chainInput_dentryName_root (ns : List (List Nat)) :
    (chainInput ns).dentryName ns.length = [47] := by
  simp [chainInput, List.getD_eq_getElem?_getD,
    List.getElem?_eq_none (Nat.le_refl _)]

/-- One iteration of the walk at a non-root position of the chain: the
component name is cut to 254 bytes, NUL-terminated into its slot, the
depth is bumped and the walk advances to the parent — for a name of any
length, because `bpf_probe_read_kernel_str` returns at most `NAME_MAX`,
so the early-stop test `filepart_length > NAME_MAX` cannot fire. -/
theorem chain_walkLoop_step (ns : List (List Nat)) (f k depth iters : Nat)
    (acc : List (List Nat)) (hlt : k < ns.length) :
    walkLoop (chainInput ns) (f + 1) k 0 depth iters acc =
      walkLoop (chainInput ns) f (k + 1) 0 (depth + 1) (iters + 1)
        (acc ++ [ns[k].take 254 ++ [0]]) := by
  simp only [walkLoop, probeReadKernelStr, chainInput_dentryName_lt ns k hlt]
  rw [if_neg (Nat.not_lt.mpr (Nat.min_le_right _ _))]
  rw [if_neg ?hb]
  case hb =>
    simp only [chainInput]
    rw [if_pos hlt]
    push_neg
    exact ⟨by omega, by omega⟩
  simp only [chainInput]
  rw [if_pos hlt]
  norm_num [NAME_MAX]

/-- The iteration that reaches the root dentry of the chain: its name `/`
is still written into the next slot, but the mount's parent is itself, so
the walk stops without bumping the depth. -/
theorem chain_walkLoop_rootStep (ns : List (List Nat)) (f depth iters : Nat)
    (acc : List (List Nat)) :
    walkLoop (chainInput ns) (f + 1) ns.length 0 depth iters acc =
      ⟨acc ++ [[47, 0]], depth, iters + 1⟩ := by
  simp only [walkLoop, probeReadKernelStr, chainInput_dentryName_root]
  rw [if_neg (Nat.not_lt.mpr (Nat.min_le_right _ _))]
  rw [if_pos ?hb]
  case hb =>
    simp only [chainInput]
    rw [if_neg (Nat.lt_irrefl _)]
    exact Or.inl rfl
  simp only [chainInput]
  rw [if_neg (by omega)]
  norm_num [NAME_MAX]

theorem chain_walkLoop_reaches_root (ns : List (List Nat)) :
    ∀ (f k depth iters : Nat) (acc : List (List Nat)),
      k ≤ ns.length → ns.length - k < f →
      walkLoop (chainInput ns) f k 0 depth iters acc =
        ⟨acc ++ (ns.drop k).map (fun n => n.take 254 ++ [0]) ++ [[47, 0]],
         depth + (ns.length - k), iters + (ns.length - k) + 1⟩ := by
  intro f
  induction f with
  | zero => intro k depth iters acc hk hf; omega
  | succ f ih =>
    intro k depth iters acc hk hf
    rcases Nat.lt_or_eq_of_le hk with hlt | heq
    · rw [chain_walkLoop_step ns f k depth iters acc hlt,
        ih (k + 1) (depth + 1) (iters + 1) _ hlt (by omega)]
      rw [List.drop_eq_getElem_cons hlt, List.map_cons]
      simp only [WalkResult.mk.injEq]
      refine ⟨by simp, by omega, by omega⟩
    · subst heq
      rw [chain_walkLoop_rootStep ns f depth iters acc]
      simp only [WalkResult.mk.injEq]
      refine ⟨by simp, by omega, by omega⟩

theorem chain_walkLoop_out_of_fuel (ns : List (List Nat)) :
    ∀ (f k depth iters : Nat) (acc : List (List Nat)),
      k + f ≤ ns.length →
      walkLoop (chainInput ns) f k 0 depth iters acc =
        ⟨acc ++ ((ns.drop k).take f).map (fun n => n.take 254 ++ [0]),
         depth + f, iters + f⟩ := by
  intro f
  induction f with
  | zero => intro k depth iters acc hk; simp [walkLoop]
  | succ f ih =>
    intro k depth iters acc hk
    have hlt : k < ns.length := by omega
    rw [chain_walkLoop_step ns f k depth iters acc hlt,
      ih (k + 1) (depth + 1) (iters + 1) _ (by omega)]
    rw [List.drop_eq_getElem_cons hlt, List.take_succ_cons, List.map_cons]
    simp only [WalkResult.mk.injEq]
    refine ⟨by simp, by omega, by omega⟩

/-- A chain of at most 30 directories is walked in full: one slot per
directory plus the root slot `/`, and the depth counts the directories. -/
theorem chain_pathWalk_shallow (ns : List (List Nat)) (h : ns.length ≤ 30) :
    pathWalk (chainInput ns) =
      ⟨ns.map (fun n => n.take 254 ++ [0]) ++ [[47, 0]],
       ns.length, ns.length + 1⟩ := by
  have hM : MAX_ENTRIES - 1 = 31 := rfl
  rw [pathWalk, hM]
  have := chain_walkLoop_reaches_root ns 31 0 0 0 []
    (Nat.zero_le _) (by omega)
  simpa using this

/-- A chain of 31 or more directories exhausts the 31 loop iterations:
exactly the 31 nearest components are recorded and the depth is 31. -/
theorem chain_pathWalk_deep (ns : List (List Nat)) (h : 31 ≤ ns.length) :
    pathWalk (chainInput ns) =
      ⟨(ns.take 31).map (fun n => n.take 254 ++ [0]), 31, 31⟩ := by
  have hM : MAX_ENTRIES - 1 = 31 := rfl
  rw [pathWalk, hM]
  have := chain_walkLoop_out_of_fuel ns 31 0 0 0 [] (by omega)
  simpa using this

/-! ## Consumer-side helper lemmas -/

theorem takeWhile_append_zero (l : List Nat) (h : 0 ∉ l) :
    (l ++ [0]).takeWhile (fun b => b != 0) = l := by
  induction l with
  | nil => rfl
  | cons a t ih =>
    have ha : a ≠ 0 := fun e => h (e ▸ List.mem_cons_self a t)
    simp only [List.cons_append, List.takeWhile_cons]
    rw [if_pos (by simpa using ha)]
    rw [ih (fun hm => h (List.mem_cons_of_mem _ hm))]

theorem split_slot_intact (n : List Nat) (h0 : 0 ∉ n) (hlen : n.length ≤ 254) :
    (n.take 254 ++ [0]).takeWhile (fun b => b != 0) = n := by
  rw [List.take_of_length_le hlen]
  exact takeWhile_append_zero n h0

theorem split_chunk0 (fname : List Nat) (h0 : 0 ∉ fname)
    (hlen : fname.length ≤ 254) :
    (chunk0 fname).takeWhile (fun b => b != 0) = fname := by
  rw [chunk0, List.take_of_length_le (by simp [NAME_MAX]; omega)]
  exact takeWhile_append_zero fname h0

theorem joinSep_headD (x : List Nat) (xs : List (List Nat)) (d : Nat)
    (hx : x ≠ []) : (joinSep (x :: xs)).headD d = x.headD d := by
  cases xs with
  | nil => rfl
  | cons y ys =>
    cases x with
    | nil => exact absurd rfl hx
    | cons a t => rfl

theorem headD_mem (x : List Nat) (d : Nat) (hx : x ≠ []) : x.headD d ∈ x := by
  cases x with
  | nil => exact absurd rfl hx
  | cons a t => exact List.mem_cons_self a t

theorem split_slots_map (l : List (List Nat))
    (hl : ∀ n ∈ l, n ≠ [] ∧ 47 ∉ n ∧ 0 ∉ n ∧ n.length ≤ 254) :
    (l.map (fun n => n.take 254 ++ [0])).map
      (fun c => c.takeWhile (fun b => b != 0)) = l := by
  rw [List.map_map]
  conv_rhs => rw [← List.map_id l]
  exact List.map_congr_left fun n hn =>
    split_slot_intact n (hl n hn).2.2.1 (hl n hn).2.2.2

/-- C1: For every synthetic directory chain of depth `d < 32` with known
component names (nonempty, NUL-free, separator-free, at most 254 bytes —
the slot holds at most 254 content bytes) and no mount crossings, feeding
the producer-filled leaf-to-root chunk table (relative filename in chunk
0, then one ancestor directory name per chunk, `path_depth` counting the
filled directory slots) to the consumer rendering step yields exactly the
expected root-to-leaf separator-joined string with exactly one leading
separator (the second conjunct: the joined tail does not itself start
with the separator). -/
theorem path_roundtrip (ns : List (List Nat)) (fname : List Nat)
    (hd : ns.length < 32)
    (hns : ∀ n ∈ ns, n ≠ [] ∧ 47 ∉ n ∧ 0 ∉ n ∧ n.length ≤ 254)
    (hfrel : fname.headD 0 ≠ 47) (hfne : fname ≠ []) (hf0 : 0 ∉ fname)
    (hflen : fname.length ≤ 254) :
    displayPath fname (chainInput ns) =
      47 :: joinSep (ns.reverse ++ [fname]) ∧
    (joinSep (ns.reverse ++ [fname])).headD 0 ≠ 47 := by
  have hjoin : (joinSep (ns.reverse ++ [fname])).headD 0 ≠ 47 := by
    cases hrev : ns.reverse with
    | nil => simpa [joinSep] using hfrel
    | cons y ys =>
      have hy : y ∈ ns := by
        have : y ∈ ns.reverse := by rw [hrev]; exact List.mem_cons_self y ys
        exact List.mem_reverse.mp this
      have hyne : y ≠ [] := (hns y hy).1
      have h47 : 47 ∉ y := (hns y hy).2.1
      rw [List.cons_append, joinSep_headD y (ys ++ [fname]) 0 hyne]
      exact fun hh => h47 (hh ▸ headD_mem y 0 hyne)
  refine ⟨?_, hjoin⟩
  have hrel : ((fname ++ [0]).headD 0 ≠ 47) := by
    cases fname with
    | nil => exact absurd rfl hfne
    | cons a t => simpa using hfrel
  have hfq : fname ≠ [47] := fun e => hfrel (by rw [e]; rfl)
  have hall : ∀ s ∈ fname :: ns, ((s != [47]) && (s != [])) = true := by
    intro s hs
    rcases List.mem_cons.mp hs with rfl | hmem
    · simp [bne_iff_ne, hfq, hfne]
    · have h1 := (hns s hmem).1
      have h2 : s ≠ [47] :=
        fun e => (hns s hmem).2.1 (e ▸ List.mem_cons_self 47 [])
      simp [bne_iff_ne, h1, h2]
  have hroot : ([47, 0] : List Nat).takeWhile (fun b => b != 0) = [47] := rfl
  simp only [displayPath, submitData]
  rw [if_pos hrel]
  rcases Nat.lt_or_ge ns.length 31 with hle | hge
  · rw [chain_pathWalk_shallow ns (by omega)]
    simp only [renderPath, split_names, List.map_cons, List.map_append,
      List.map_nil]
    rw [split_chunk0 fname hf0 hflen, split_slots_map ns hns, hroot]
    rw [List.take_succ_cons, List.take_left' rfl]
    rw [List.filter_eq_self.mpr hall]
    rw [List.reverse_cons]
    rw [if_neg hjoin]
  · have h31 : ns.length = 31 := by omega
    rw [chain_pathWalk_deep ns (by omega)]
    rw [List.take_of_length_le (by omega)]
    simp only [renderPath, split_names, List.map_cons, List.map_append,
      List.map_nil]
    rw [split_chunk0 fname hf0 hflen, split_slots_map ns hns]
    rw [List.take_of_length_le (by simp [h31])]
    rw [List.filter_eq_self.mpr hall]
    rw [List.reverse_cons]
    rw [if_neg hjoin]

/-- C1 witness: the relative filename `"rel/file"` with working directory
`/home/user` (leaf-to-root chain `["user", "home"]`) renders as
`/home/user/rel/file`. -/
theorem path_roundtrip_witness :
    displayPath [114, 101, 108, 47, 102, 105, 108, 101]
      (chainInput [[117, 115, 101, 114], [104, 111, 109, 101]]) =
      [47, 104, 111, 109, 101, 47, 117, 115, 101, 114, 47,
       114, 101, 108, 47, 102, 105, 108, 101] := by
  have h := path_roundtrip [[117, 115, 101, 114], [104, 111, 109, 101]]
    [114, 101, 108, 47, 102, 105, 108, 101] (by decide) (by decide)
    (by decide) (by decide) (by decide) (by decide)
  exact h.1.trans (by decide)

set_option maxRecDepth 4000 in
/-- C3 counterexample: the claim fails on the code in two places, because
`bpf_probe_read_kernel_str` returns at most `NAME_MAX`, so the walk's
early-stop test `filepart_length > NAME_MAX` never fires on a long name.
At the concrete single-directory chain whose component name is exactly
255 bytes (255 × byte 97), the slot as decoded by the consumer holds only
the first 254 bytes — the name is not copied intact; and at the chain
whose first component name is 256 bytes followed by a second directory,
the walk does not stop at the long component: it fills the next slot too
and emits depth 2. -/
theorem walk_long_name_cex :
    ((pathWalk (chainInput [List.replicate 255 97])).chunks.headD
        []).takeWhile (fun b => b != 0) = List.replicate 254 97 ∧
    List.replicate 254 97 ≠ List.replicate 255 97 ∧
    (pathWalk (chainInput [List.replicate 255 97])).depth = 1 ∧
    (pathWalk (chainInput [List.replicate 256 97, [98]])).depth = 2 ∧
    (pathWalk (chainInput [List.replicate 256 97, [98]])).chunks.length
      = 3 := by
  refine ⟨?_, ?_, ?_, ?_, ?_⟩ <;> decide

/-- C3 (amended): during the path walk, a directory chain of exactly 32
directories truncates without error (all 31 slots are filled and the
emitted depth is 31); a single component name of at most 254 bytes is
copied into its chunk slot intact; a component name of 255 bytes or more
is truncated to its first 254 bytes and the walk continues past it, the
slot still counting toward the emitted depth. -/
theorem walk_truncation_amended (ns : List (List Nat)) (nm other : List Nat)
    (h32 : ns.length = 32) (hnm0 : 0 ∉ nm) (hnm254 : nm.length ≤ 254) :
    (pathWalk (chainInput ns)).depth = 31 ∧
    (pathWalk (chainInput ns)).iters = 31 ∧
    (pathWalk (chainInput ns)).chunks.length = 31 ∧
    ((pathWalk (chainInput [nm])).chunks.headD []).takeWhile
      (fun b => b != 0) = nm ∧
    (pathWalk (chainInput [other, [98]])).chunks.headD [] =
      other.take 254 ++ [0] ∧
    (pathWalk (chainInput [other, [98]])).depth = 2 := by
  have hdeep := chain_pathWalk_deep ns (by omega)
  have h1 := chain_pathWalk_shallow [nm] (by simp)
  have h2 := chain_pathWalk_shallow [other, [98]] (by simp)
  refine ⟨by rw [hdeep], by rw [hdeep], ?_, ?_, ?_, by rw [h2]; rfl⟩
  · rw [hdeep]
    simp [h32]
  · rw [h1]
    simpa using split_slot_intact nm hnm0 hnm254
  · rw [h2]
    rfl

set_option maxRecDepth 4000 in
/-- C3 witness for the amended claim: a 32-directory chain stops at depth
31; a 254-byte component survives intact; a 255-byte component leaves the
walk running to depth 2 on a two-directory chain. -/
theorem walk_truncation_amended_witness :
    (pathWalk (chainInput (List.replicate 32 [99]))).depth = 31 ∧
    ((pathWalk (chainInput [List.replicate 254 97])).chunks.headD
        []).takeWhile (fun b => b != 0) = List.replicate 254 97 ∧
    (pathWalk (chainInput [List.replicate 255 97, [98]])).depth = 2 := by
  have h := walk_truncation_amended (List.replicate 32 [99])
    (List.replicate 254 97) (List.replicate 255 97)
    (by simp) (by decide) (by decide)
  exact ⟨h.1, h.2.2.2.1, h.2.2.2.2.2⟩

/-- C4 witness: with `-f O_WRONLY -f O_RDWR` (mask 3), an attempt whose
flags value 4 shares no bit with the mask is discarded by both capture
strategies: no event and no correlation entry is produced. -/
theorem flag_filter_any_bit_witness :
    kfuncCapture
      (captureCfgOf { flag_filter := some ["O_WRONLY", "O_RDWR"] } 0 false)
      false 7 0 [] 0 [] (chainInput []) 4 0 0 = none ∧
    kprobeEntry
      (captureCfgOf { flag_filter := some ["O_WRONLY", "O_RDWR"] } 0 false)
      7 0 4 0 [] = none := by
  have h := flag_filter_any_bit { flag_filter := some ["O_WRONLY", "O_RDWR"] }
    ["O_WRONLY", "O_RDWR"] 3 rfl (by decide) rfl 0 false false 7 0 0 0 0
    [] [] (chainInput []) 4 0 0
  exact ⟨h.2.1 (by decide), h.2.2.2 (by decide)⟩

/-- C6 witness: a call failing with outcome -2 under failed-only filtering
is emitted with FD -1 and ERR 2. -/
theorem fd_err_columns_witness :
    print_event { failed := true }
      { id := 0, ts := 0, uid := 0, ret := -2, comm := [], path_depth := 0,
        nameSlots := [], flags := 0, mode := 0 } =
      some { fd := -1, err := 2, extCols := none, path := [] } ∧
    (-1 : Int) = (if (-2 : Int) ≥ 0 then (-2 : Int) else -1) ∧
    (2 : Int) = (if (-2 : Int) ≥ 0 then 0 else -(-2 : Int)) := by
  refine ⟨by decide, ?_, ?_⟩
  · have h := fd_err_columns { failed := true }
      { id := 0, ts := 0, uid := 0, ret := -2, comm := [], path_depth := 0,
        nameSlots := [], flags := 0, mode := 0 }
      { fd := -1, err := 2, extCols := none, path := [] } (by decide)
    exact h.1.symm.trans (by rfl)
  · have h := fd_err_columns { failed := true }
      { id := 0, ts := 0, uid := 0, ret := -2, comm := [], path_depth := 0,
        nameSlots := [], flags := 0, mode := 0 }
      { fd := -1, err := 2, extCols := none, path := [] } (by decide)
    exact h.2.symm.trans (by rfl)

/-- C7 witness: a successful call (outcome 5) with extended fields, flags
`O_CREAT|O_WRONLY` (octal 101) and mode octal 644 renders FLAGS as the
8-digit octal `00000101` and MODE as `0644`. -/
theorem flags_mode_rendering_witness :
    print_event { extended_fields := true }
      { id := 0, ts := 0, uid := 0, ret := 5, comm := [], path_depth := 0,
        nameSlots := [], flags := 65, mode := 420 } =
      some { fd := 5, err := 0, extCols := some ("00000101", "0644"),
             path := [] } ∧
    (fmtOctal 8 65).length = 8 := by
  refine ⟨by decide, ?_⟩
  have h := flags_mode_rendering { extended_fields := true }
    { id := 0, ts := 0, uid := 0, ret := 5, comm := [], path_depth := 0,
      nameSlots := [], flags := 65, mode := 420 }
    { fd := 5, err := 0, extCols := some ("00000101", "0644"), path := [] }
    rfl (by decide)
  exact h.2 (by decide)

end Opensnoop
